import Mathlib

/-
Verification development for the safe-sweep deposit-forwarding script
(src/autoswitcher.py).  The Python source is shallowly embedded below:

* strings (addresses, call payloads) are Lean `String`s, since the source
  manipulates hex strings with `.lower()`, `.startswith`, slicing and
  `int(_, 16)`;
* machine integers are `Nat` (Python ints are unbounded);
* exceptions are made explicit: the per-transaction classification body
  returns `Except String _`, and the relay executor's scripted adapter
  reports each attempt's outcome (raised / returned receipt) as data;
* the top-level `while True` loop is modelled one polling cycle at a time
  (`monitorCycle`); chain state observed through the adapter is a `Chain`
  value (current height plus the transaction list of each block).
-/

namespace AutoSwitcher

/-! ## Python string primitives used by the source -/

/-- ASCII lowercasing of one character, as Python `str.lower` acts on the
ASCII hex/address strings manipulated by the script. -/
def lowerChar (c : Char) : Char :=
  if 'A' ≤ c ∧ c ≤ 'Z' then Char.ofNat (c.toNat + 32) else c

/-- Python `s.lower()` on the ASCII strings the script uses. -/
def lowerS (s : String) : String := String.mk (s.data.map lowerChar)

/-- Python slice `s[a:b]` (for `0 ≤ a ≤ b`): characters `a, …, b-1`,
truncated at the end of the string. -/
def pySlice (s : String) (a b : Nat) : String :=
  String.mk ((s.data.drop a).take (b - a))

/-- Python `s.startswith(p)`. -/
def pyStartsWith (s p : String) : Bool := List.isPrefixOf p.data s.data

/-- Value of one hexadecimal digit, if any. -/
def hexDigit? (c : Char) : Option Nat :=
  if '0' ≤ c ∧ c ≤ '9' then some (c.toNat - '0'.toNat)
  else if 'a' ≤ c ∧ c ≤ 'f' then some (c.toNat - 'a'.toNat + 10)
  else if 'A' ≤ c ∧ c ≤ 'F' then some (c.toNat - 'A'.toNat + 10)
  else none

/-- Big-endian accumulation of hex digits; `none` on a non-digit. -/
def hexAccum : List Char → Nat → Option Nat
  | [], acc => some acc
  | c :: cs, acc =>
    match hexDigit? c with
    | some d => hexAccum cs (acc * 16 + d)
    | none => none

/-- Python `int(s, 16)` on the plain hex-digit strings the scanner slices
out of call payloads: `none` models the `ValueError` raised on an empty or
non-hex string.  (The extra shapes Python's `int` accepts — sign, `0x`,
underscores, surrounding whitespace — never occur in the slices taken by
the source and are not modelled.) -/
def intHex (s : String) : Option Nat :=
  match s.data with
  | [] => none
  | l => hexAccum l 0

/-! ## Configuration constants (src/autoswitcher.py lines 13-23) -/

def YOUR_SAFE_ADDRESS : String := "0x3Ef50d6213F36eb88b994FA6C78277B328216d52"

def YOUR_TARGET_WALLET : String := "0xdD3BA483352ab5E74e4C52681Fd53DB4376e5c13"

def TOKEN_ADDRESSES : List (String × String) :=
  [("USDT", "0xc2132D05D31c914a87C6611C10748AEb04B58e8F"),
   ("USDC", "0x2791Bca1f2de4661ED88A30C99A7a9449Aa84174")]

def MONITOR_INTERVAL : Nat := 60

def BLOCK_RANGE : Nat := 100

def RETRY_ATTEMPTS : Nat := 5

/-- `TOKEN_ADDRESSES.values()`. -/
def registryValues : List String := TOKEN_ADDRESSES.map Prod.snd

/-! ## Transactions and classification (src/autoswitcher.py lines 74-86) -/

/-- One observed chain transaction: the fields of the `tx` record the
scanner reads (`tx['to']`, `tx['value']`, `tx['input']`).  `to_address` is
`none` for contract-creation transactions (`tx['to']` is `None`). -/
structure Tx where
  to_address : Option String
  value : Nat
  input : String
deriving DecidableEq

/-- A deposit recognised by the per-transaction classification. -/
inductive DepositEvent where
  | native : Nat → DepositEvent
  | token : String → Nat → DepositEvent
deriving DecidableEq

/-- The generator expression
`next(symbol for symbol, addr in TOKEN_ADDRESSES.items() if addr.lower() == token_address.lower())`
(line 81): first symbol whose address matches case-insensitively. -/
def tokenSymbolFor (t : String) : Option String :=
  (TOKEN_ADDRESSES.find? (fun p => lowerS p.2 == lowerS t)).map Prod.fst

/-- Per-transaction classification, the body of the inner `for tx in
block.transactions` loop (lines 75-86), with the relay call stripped out:

* `if tx['to'] and tx['to'].lower() == YOUR_SAFE_ADDRESS.lower():`
* `  if tx['value'] > 0:` — native deposit;
* `  elif tx['to'] in TOKEN_ADDRESSES.values() and tx['input'].startswith('0xa9059cbb'):`
  — token deposit, taking `value = int(tx['input'][74:138], 16)`.

Exceptions escaping the body (the `StopIteration` of the symbol lookup,
the `ValueError` of `int`) are returned as `Except.error`; they would
propagate to the cycle-level `except` of the monitor loop. -/
def classifyTx (tx : Tx) : Except String (Option DepositEvent) :=
  match tx.to_address with
  | none => Except.ok none
  | some t =>
    if lowerS t = lowerS YOUR_SAFE_ADDRESS then
      if tx.value > 0 then
        Except.ok (some (DepositEvent.native tx.value))
      else if registryValues.contains t && pyStartsWith tx.input "0xa9059cbb" then
        match tokenSymbolFor t with
        | none => Except.error "StopIteration"
        | some _ =>
          match intHex (pySlice tx.input 74 138) with
          | none => Except.error "ValueError"
          | some v => Except.ok (some (DepositEvent.token t v))
      else Except.ok none
    else Except.ok none

/-! ## ABI encoding helper (lines 84-85) -/

/-- Python `s[2:]`, dropping a `0x` prefix. -/
def drop0x (s : String) : String := String.mk (s.data.drop 2)

/-- Lowercase hexadecimal rendering of a natural number. -/
def natHex (n : Nat) : String := String.mk (Nat.toDigits 16 n)

/-- Left-pad a hex string with `'0'` to one 32-byte ABI slot (64 hex
characters). -/
def pad64 (s : String) : String :=
  String.mk (List.replicate (64 - s.data.length) '0') ++ s

/-- `contract.encodeABI(fn_name='transfer', args=[to, amount])`: the
4-byte `transfer(address,uint256)` selector followed by the two 32-byte
argument slots (address right-aligned, amount big-endian). -/
def encodeTransferData (toA : String) (amount : Nat) : String :=
  "0xa9059cbb" ++ pad64 (lowerS (drop0x toA)) ++ pad64 (natHex amount)

/-! ## One polling cycle of the scan loop (lines 62-90) -/

/-- One relay invocation `execute_safe_transaction(to_address, value, data)`
as issued by the scan loop (lines 78 and 86). -/
structure RelayCall where
  to_address : String
  value : Nat
  data : String
deriving DecidableEq

/-- Relay invocations issued for one transaction: the native branch calls
`execute_safe_transaction(YOUR_TARGET_WALLET, tx['value'], b'')`, the token
branch `execute_safe_transaction(token_address, 0, transfer_data)`. -/
def txRelayCalls (tx : Tx) : Except String (List RelayCall) :=
  match classifyTx tx with
  | Except.error e => Except.error e
  | Except.ok none => Except.ok []
  | Except.ok (some (DepositEvent.native v)) =>
      Except.ok [⟨YOUR_TARGET_WALLET, v, ""⟩]
  | Except.ok (some (DepositEvent.token a v)) =>
      Except.ok [⟨a, 0, encodeTransferData YOUR_TARGET_WALLET v⟩]

/-- Sequential processing of a block's transaction list; an exception
aborts the rest (it propagates to the cycle-level `except`). -/
def runTxList : List Tx → Except String (List RelayCall)
  | [] => Except.ok []
  | tx :: rest =>
    match txRelayCalls tx with
    | Except.error e => Except.error e
    | Except.ok cs =>
      match runTxList rest with
      | Except.error e => Except.error e
      | Except.ok cs2 => Except.ok (cs ++ cs2)

/-- The chain as seen through the adapter during one cycle:
`w3.eth.get_block_number()` and `w3.eth.get_block(n, full_transactions=True)`. -/
structure Chain where
  height : Nat
  blocks : Nat → List Tx

/-- Lines 67-69: `if latest_block > last_logged_block: …; last_logged_block
= latest_block`.  The value of `last_logged_block` when the block `for`
loop starts. -/
def cursorAfterUpdate (c H : Nat) : Nat := if H > c then H else c

/-- `max(0, latest_block - BLOCK_RANGE)` (line 70). -/
def scanStart (H : Nat) : Nat := max 0 (H - BLOCK_RANGE)

/-- `range(max(0, latest_block - BLOCK_RANGE), latest_block + 1)` (line 70). -/
def scanRange (H : Nat) : List Nat :=
  List.range' (scanStart H) (H + 1 - scanStart H)

/-- The block numbers that survive the skip test
`if block_number <= last_logged_block: continue` (lines 71-72) and are
actually fetched with `get_block` (line 73).  The skip test compares
against the value of `last_logged_block` already updated on line 69. -/
def processedBlocks (c H : Nat) : List Nat :=
  (scanRange H).filter (fun b => ! decide (b ≤ cursorAfterUpdate c H))

/-- Fetch and process each surviving block in ascending order. -/
def runBlockList (ch : Chain) : List Nat → Except String (List RelayCall)
  | [] => Except.ok []
  | b :: rest =>
    match runTxList (ch.blocks b) with
    | Except.error e => Except.error e
    | Except.ok cs =>
      match runBlockList ch rest with
      | Except.error e => Except.error e
      | Except.ok cs2 => Except.ok (cs ++ cs2)

/-- One iteration of the `while True` monitor loop (lines 64-90), given the
cursor `c` (`last_logged_block`) at the start of the iteration: returns the
cursor at the end of the iteration and the relay calls issued (or the
exception caught by the cycle-level `except`).  The cursor result is exact
in both cases because line 69 runs before anything in the cycle can raise. -/
def monitorCycle (c : Nat) (ch : Chain) : Nat × Except String (List RelayCall) :=
  (cursorAfterUpdate c ch.height, runBlockList ch (processedBlocks c ch.height))

/-- The cursor (`last_logged_block`) across successive cycles, starting
from its initial value `0` (line 63); `heights k` is the chain height read
in cycle `k`. -/
def cursorTrace (heights : Nat → Nat) : Nat → Nat
  | 0 => 0
  | k + 1 => cursorAfterUpdate (cursorTrace heights k) (heights k)

/-! ## The relay executor (src/autoswitcher.py lines 34-60) -/

/-- A transaction receipt as used by the executor: only its `status` field
is inspected; `txHash` keeps receipts of different attempts distinct. -/
structure Receipt where
  status : Nat
  txHash : Nat
deriving DecidableEq

/-- Outcome of one iteration of the executor's attempt loop, scripted by
the adapter: either some step of lines 37-50 raised an exception
(`throws`), or the attempt ran through and `wait_for_transaction_receipt`
produced `ro` (`none` modelling an absent receipt). -/
inductive AttemptOutcome where
  | throws : AttemptOutcome
  | receipt : Option Receipt → AttemptOutcome
deriving DecidableEq

/-- Observable side effects of `execute_safe_transaction`: how many loop
iterations ran (`attemptsMade`), how many `time.sleep(5)` calls happened
(`sleeps`, line 59 — inside the `except` block only), and whether the
terminal-failure message of line 56 was logged (`terminalLog`). -/
structure ExecState where
  attemptsMade : Nat
  sleeps : Nat
  terminalLog : Bool
deriving DecidableEq

/-- The receipt returned when an attempt outcome passes the success test
`if receipt and receipt['status'] == 1` (line 51), else `none`. -/
def outcomeSuccess : AttemptOutcome → Option Receipt
  | AttemptOutcome.receipt (some r) => if r.status = 1 then some r else none
  | _ => none

/-- The `for attempt in range(RETRY_ATTEMPTS)` loop of
`execute_safe_transaction` (lines 35-59), with `fuel` iterations left and
`idx` the current value of `attempt`:

* a successful receipt returns immediately (line 53);
* a missing receipt or a receipt with `status ≠ 1` falls off the end of
  the `try` body — no sleep, no log — and the loop continues;
* an exception is caught (line 54): the terminal message is logged when
  `attempt == RETRY_ATTEMPTS - 1` (lines 55-56), then `time.sleep(5)`
  (line 59) runs, then the loop continues.

After the loop the function returns `None` (line 60). -/
def execAttempts (adapter : Nat → AttemptOutcome) :
    Nat → Nat → ExecState → ExecState × Option Receipt
  | 0, _, st => (st, none)
  | fuel + 1, idx, st =>
    match adapter idx with
    | AttemptOutcome.throws =>
      execAttempts adapter fuel (idx + 1)
        ⟨st.attemptsMade + 1, st.sleeps + 1,
         st.terminalLog || decide (idx = RETRY_ATTEMPTS - 1)⟩
    | AttemptOutcome.receipt ro =>
      match ro with
      | some r =>
        if r.status = 1 then (⟨st.attemptsMade + 1, st.sleeps, st.terminalLog⟩, some r)
        else execAttempts adapter fuel (idx + 1)
          ⟨st.attemptsMade + 1, st.sleeps, st.terminalLog⟩
      | none =>
        execAttempts adapter fuel (idx + 1)
          ⟨st.attemptsMade + 1, st.sleeps, st.terminalLog⟩

/-- `execute_safe_transaction` run against a scripted adapter: the final
effect counters and the returned receipt (`none` = the `return None` of
line 60).  The function is total — every exception of the source is caught
by the attempt-level `except`, so no error propagates to the caller. -/
def execute_safe_transaction (adapter : Nat → AttemptOutcome) :
    ExecState × Option Receipt :=
  execAttempts adapter RETRY_ATTEMPTS 0 ⟨0, 0, false⟩

/-- Number of attempts in `idx, …, idx+n-1` whose outcome is a raised
exception: by the source, exactly these attempts execute `time.sleep(5)`. -/
def countThrowsIn (adapter : Nat → AttemptOutcome) : Nat → Nat → Nat
  | _, 0 => 0
  | i, n + 1 =>
    (if adapter i = AttemptOutcome.throws then 1 else 0) + countThrowsIn adapter (i + 1) n

/-! ## Concrete inputs used by the theorems below -/

instance exceptDecEq {ε α : Type} [DecidableEq ε] [DecidableEq α] : DecidableEq (Except ε α)
  | Except.error e, Except.error f =>
    if h : e = f then isTrue (by rw [h]) else isFalse (fun hh => h (Except.error.inj hh))
  | Except.error _, Except.ok _ => isFalse (fun hh => Except.noConfusion hh)
  | Except.ok _, Except.error _ => isFalse (fun hh => Except.noConfusion hh)
  | Except.ok a, Except.ok b =>
    if h : a = b then isTrue (by rw [h]) else isFalse (fun hh => h (Except.ok.inj hh))

/-- A native deposit of exactly 5 MATIC (in wei) into the watched Safe. -/
def c1Tx : Tx := ⟨some YOUR_SAFE_ADDRESS, 5000000000000000000, ""⟩

/-- A chain at height 5 whose tip block contains exactly `c1Tx`. -/
def c1Chain : Chain := ⟨5, fun b => if b = 5 then [c1Tx] else []⟩

/-- A well-formed `transfer(WatchedAddress, 250000)` call sent to the
registered USDT token address (value 0, as token transfers carry none). -/
def c2TokenTx : Tx :=
  ⟨some "0xc2132D05D31c914a87C6611C10748AEb04B58e8F", 0,
   encodeTransferData YOUR_SAFE_ADDRESS 250000⟩

/-- A native deposit of 7 wei into the watched Safe, placed in block 3. -/
def c3Tx : Tx := ⟨some YOUR_SAFE_ADDRESS, 7, ""⟩

/-- A chain at height 5 with the deposit `c3Tx` sitting in block 3. -/
def c3Chain : Chain := ⟨5, fun b => if b = 3 then [c3Tx] else []⟩

/-! ## Scan-loop lemmas -/

/-- Every block number in the scanned range is at most the chain height. -/
lemma mem_scanRange_le {b H : Nat} (hb : b ∈ scanRange H) : b ≤ H := by
  unfold scanRange at hb
  have h1 := List.mem_range'_1.mp hb
  have h2 : scanStart H ≤ H + 1 := by
    unfold scanStart BLOCK_RANGE
    omega
  omega

/-- The cursor value used by the skip test is at least the chain height. -/
lemma height_le_cursorAfterUpdate (c H : Nat) : H ≤ cursorAfterUpdate c H := by
  unfold cursorAfterUpdate
  split <;> omega

/-- Line 69 runs before the block loop, so the skip test of line 71
compares every block number against a cursor that is already `≥ H`:
no block in the range ever survives it. -/
lemma processedBlocks_nil (c H : Nat) : processedBlocks c H = [] := by
  unfold processedBlocks
  apply List.filter_eq_nil_iff.mpr
  intro b hb
  have h1 := mem_scanRange_le hb
  have h2 := height_le_cursorAfterUpdate c H
  simp only [Bool.not_eq_true', Bool.not_eq_false]
  exact decide_eq_true (by omega)

/-- A cycle over an empty processed-block list issues no relay calls. -/
lemma monitorCycle_eq (c : Nat) (ch : Chain) :
    monitorCycle c ch = (cursorAfterUpdate c ch.height, Except.ok []) := by
  unfold monitorCycle
  rw [processedBlocks_nil]
  rfl

/-- The cursor never decreases in one cycle. -/
lemma cursorAfterUpdate_ge (c H : Nat) : c ≤ cursorAfterUpdate c H := by
  unfold cursorAfterUpdate
  split <;> omega

/-! ## Claims about the scan loop -/

/-- C4: in every iteration of the scan loop, `last_logged_block` is set to
at least the latest chain height before the block range is iterated, so
every block in the range is skipped: the loop fetches no block, classifies
no transaction, and issues no `execute_safe_transaction` call. -/
theorem C4_scan_loop_processes_nothing (c : Nat) (ch : Chain) :
    ch.height ≤ cursorAfterUpdate c ch.height ∧
    processedBlocks c ch.height = [] ∧
    monitorCycle c ch = (cursorAfterUpdate c ch.height, Except.ok []) :=
  ⟨height_le_cursorAfterUpdate c ch.height,
   processedBlocks_nil c ch.height,
   monitorCycle_eq c ch⟩

/-- C7: across cycles the cursor is monotonically non-decreasing, and no
block with number at most the cursor is ever (re-)scanned. -/
theorem C7_cursor_monotone_no_rescan (heights : Nat → Nat) (k b : Nat)
    (_hb : b ≤ cursorTrace heights k) :
    cursorTrace heights k ≤ cursorTrace heights (k + 1) ∧
    b ∉ processedBlocks (cursorTrace heights k) (heights k) := by
  constructor
  · exact cursorAfterUpdate_ge (cursorTrace heights k) (heights k)
  · rw [processedBlocks_nil]
    exact List.not_mem_nil b

/-- Witness for C7 at a concrete trace: first cycle at height 7, block 0. -/
theorem C7_witness :
    cursorTrace (fun _ => 7) 0 ≤ cursorTrace (fun _ => 7) 1 ∧
    0 ∉ processedBlocks (cursorTrace (fun _ => 7) 0) 7 :=
  C7_cursor_monotone_no_rescan (fun _ => 7) 0 0 (by decide)

/-- C1 (code bug): the classifier body does recognise the 5-MATIC deposit
in block 5, yet the cycle starting at cursor 0 on that chain issues zero
relay calls — the cursor is bumped to the height before the block loop, so
block 5 is skipped as "already processed". The spec requires exactly one
relay call forwarding the amount to the destination wallet. -/
theorem C1_deposit_block_yields_no_relay_call :
    classifyTx c1Tx = Except.ok (some (DepositEvent.native 5000000000000000000)) ∧
    monitorCycle 0 c1Chain = (5, Except.ok []) := by
  constructor
  · decide
  · decide

/-- C3 (code bug): with cursor 0 and height 5, the cursor is already 5
when the block loop runs (the advance happens before, not after, the
iteration), the whole range is skipped, and the deposit in block 3 is
abandoned; moreover the advance is conditional — at height 5 a cursor of 7
stays 7 rather than being set to the height at the end of the cycle. -/
theorem C3_cursor_advances_before_iteration :
    cursorAfterUpdate 0 5 = 5 ∧
    processedBlocks 0 5 = [] ∧
    monitorCycle 0 c3Chain = (5, Except.ok []) ∧
    cursorAfterUpdate 7 5 = 7 := by
  refine ⟨by decide, processedBlocks_nil 0 5, by decide, by decide⟩

/-! ## Claims about the transaction classifier -/

/-- C5: any transaction whose recipient equals the watched address
(case-insensitively) and whose native value is positive is classified as
exactly one native deposit event carrying that value. -/
theorem C5_native_deposit_classified (tx : Tx) (t : String)
    (h1 : tx.to_address = some t)
    (h2 : lowerS t = lowerS YOUR_SAFE_ADDRESS)
    (h3 : 0 < tx.value) :
    classifyTx tx = Except.ok (some (DepositEvent.native tx.value)) := by
  unfold classifyTx
  rw [h1]
  simp [h2, h3]

/-- Witness for C5: a 42-wei deposit straight into the Safe. -/
theorem C5_witness :
    classifyTx ⟨some YOUR_SAFE_ADDRESS, 42, ""⟩ =
      Except.ok (some (DepositEvent.native 42)) :=
  C5_native_deposit_classified ⟨some YOUR_SAFE_ADDRESS, 42, ""⟩
    YOUR_SAFE_ADDRESS rfl rfl (by decide)

/-- C2 (code bug): `c2TokenTx` is addressed to the registered USDT
contract and its payload is a well-formed `transfer` call whose first
argument slot is exactly the watched address and whose second slot decodes
to 250000 — yet classification yields no event at all: the token `elif` is
nested inside the `tx['to'] == Safe` branch, so a transaction to a token
address never reaches it (and the decoded recipient slot is never compared
to the watched address anywhere in the source). -/
theorem C2_wellformed_token_transfer_ignored :
    registryValues.contains "0xc2132D05D31c914a87C6611C10748AEb04B58e8F" = true ∧
    pyStartsWith c2TokenTx.input "0xa9059cbb" = true ∧
    pySlice c2TokenTx.input 10 74 = pad64 (lowerS (drop0x YOUR_SAFE_ADDRESS)) ∧
    intHex (pySlice c2TokenTx.input 74 138) = some 250000 ∧
    classifyTx c2TokenTx = Except.ok none := by
  refine ⟨by decide, by decide, by decide, by decide, by decide⟩

/-- The registry only contains the two configured token addresses. -/
lemma mem_registryValues {t : String} (h : registryValues.contains t = true) :
    t = "0xc2132D05D31c914a87C6611C10748AEb04B58e8F" ∨
    t = "0x2791Bca1f2de4661ED88A30C99A7a9449Aa84174" := by
  simp only [registryValues, TOKEN_ADDRESSES] at h
  simpa using h

/-- Neither registered token address lowercases to the watched address. -/
lemma registry_ne_safe {t : String} (hc : registryValues.contains t = true) :
    ¬ lowerS t = lowerS YOUR_SAFE_ADDRESS := by
  rcases mem_registryValues hc with rfl | rfl
  · decide
  · decide

/-- C6 counterexample: the claim quantifies over *every* transaction whose
payload is a truncated `transfer` call, but a positive-value transaction
into the Safe with such a payload yields a (native) deposit event, so
"yields no DepositEvent" is false as stated. -/
theorem C6_counterexample :
    pyStartsWith (Tx.mk (some YOUR_SAFE_ADDRESS) 1 "0xa9059cbb").input "0xa9059cbb" = true ∧
    (Tx.mk (some YOUR_SAFE_ADDRESS) 1 "0xa9059cbb").input.length < 138 ∧
    classifyTx (Tx.mk (some YOUR_SAFE_ADDRESS) 1 "0xa9059cbb") ≠ Except.ok none := by
  refine ⟨by decide, by decide, by decide⟩

/-- C6 amended: for every transaction that is not a native deposit
(recipient differs from the watched address, or value is zero) and whose
payload begins with the `transfer` selector but is shorter than the
minimal well-formed length, classification yields no event and raises no
error.  (In the source this holds because the only decoding site sits in
the unreachable token branch; the `int` call there would raise on such a
payload if it were ever reached.) -/
theorem C6_short_payload_no_event_no_error (tx : Tx)
    (hnat : ∀ t, tx.to_address = some t →
      ¬ (lowerS t = lowerS YOUR_SAFE_ADDRESS ∧ 0 < tx.value))
    (_hsel : pyStartsWith tx.input "0xa9059cbb" = true)
    (_hlen : tx.input.length < 138) :
    classifyTx tx = Except.ok none := by
  obtain ⟨to?, v, inp⟩ := tx
  cases to? with
  | none => rfl
  | some t =>
    simp only [classifyTx]
    by_cases heq : lowerS t = lowerS YOUR_SAFE_ADDRESS
    · have hv : ¬ 0 < v := fun hv => hnat t rfl ⟨heq, hv⟩
      rw [if_pos heq, if_neg hv]
      have hc : registryValues.contains t = false := by
        cases hcc : registryValues.contains t with
        | false => rfl
        | true => exact absurd heq (registry_ne_safe hcc)
      rw [hc]
      rfl
    · rw [if_neg heq]

/-- Witness for C6 (amended): truncated `transfer` payload sent to the
USDT token address, positive value, no event and no error. -/
theorem C6_witness :
    pyStartsWith (Tx.mk (some "0xc2132D05D31c914a87C6611C10748AEb04B58e8F") 5 "0xa9059cbb").input
      "0xa9059cbb" = true ∧
    (Tx.mk (some "0xc2132D05D31c914a87C6611C10748AEb04B58e8F") 5 "0xa9059cbb").input.length < 138 ∧
    classifyTx (Tx.mk (some "0xc2132D05D31c914a87C6611C10748AEb04B58e8F") 5 "0xa9059cbb") =
      Except.ok none := by
  refine ⟨by decide, by decide, ?_⟩
  apply C6_short_payload_no_event_no_error
  · intro t ht
    have h2 : ("0xc2132D05D31c914a87C6611C10748AEb04B58e8F" : String) = t :=
      Option.some.inj ht
    rw [← h2]
    decide
  · decide
  · decide

/-! ## Relay-executor lemmas -/

/-- If the attempts `i, …, i+k-1` all fail and attempt `i+k` passes the
success test, the loop returns that receipt after exactly `k+1` iterations. -/
lemma execAttempts_first_success (adapter : Nat → AttemptOutcome) :
    ∀ (k f i : Nat) (st : ExecState) (r : Receipt),
      k < f →
      (∀ j, j < k → outcomeSuccess (adapter (i + j)) = none) →
      outcomeSuccess (adapter (i + k)) = some r →
      (execAttempts adapter f i st).2 = some r ∧
      (execAttempts adapter f i st).1.attemptsMade = st.attemptsMade + (k + 1) := by
  intro k
  induction k with
  | zero =>
    intro f i st r hk _ hsucc
    obtain ⟨f, rfl⟩ : ∃ f', f = f' + 1 := ⟨f - 1, by omega⟩
    rw [Nat.add_zero] at hsucc
    cases ha : adapter i with
    | throws => rw [ha] at hsucc; simp [outcomeSuccess] at hsucc
    | receipt ro =>
      cases ro with
      | none => rw [ha] at hsucc; simp [outcomeSuccess] at hsucc
      | some r0 =>
        rw [ha] at hsucc
        by_cases h1 : r0.status = 1
        · simp only [outcomeSuccess, if_pos h1] at hsucc
          obtain rfl := Option.some.inj hsucc
          constructor <;> simp [execAttempts, ha, h1]
        · simp [outcomeSuccess, h1] at hsucc
  | succ k ih =>
    intro f i st r hk hfail hsucc
    obtain ⟨f, rfl⟩ : ∃ f', f = f' + 1 := ⟨f - 1, by omega⟩
    have h0 : outcomeSuccess (adapter i) = none := by
      have := hfail 0 (Nat.succ_pos k)
      rwa [Nat.add_zero] at this
    have hfail' : ∀ j, j < k → outcomeSuccess (adapter (i + 1 + j)) = none := by
      intro j hj
      have := hfail (j + 1) (by omega)
      rwa [show i + (j + 1) = i + 1 + j by omega] at this
    have hsucc' : outcomeSuccess (adapter (i + 1 + k)) = some r := by
      rwa [show i + (k + 1) = i + 1 + k by omega] at hsucc
    have hk' : k < f := by omega
    cases ha : adapter i with
    | throws =>
      have h := ih f (i + 1)
        ⟨st.attemptsMade + 1, st.sleeps + 1,
         st.terminalLog || decide (i = RETRY_ATTEMPTS - 1)⟩ r hk' hfail' hsucc'
      refine ⟨by simpa [execAttempts, ha] using h.1, ?_⟩
      simp only [execAttempts, ha]
      rw [h.2]
      show st.attemptsMade + 1 + (k + 1) = st.attemptsMade + (k + 1 + 1)
      omega
    | receipt ro =>
      cases ro with
      | some r0 =>
        have h1 : ¬ r0.status = 1 := by
          intro h1
          rw [ha] at h0
          simp [outcomeSuccess, h1] at h0
        have h := ih f (i + 1) ⟨st.attemptsMade + 1, st.sleeps, st.terminalLog⟩ r hk' hfail' hsucc'
        refine ⟨by simpa [execAttempts, ha, h1] using h.1, ?_⟩
        simp only [execAttempts, ha, if_neg h1]
        rw [h.2]
        show st.attemptsMade + 1 + (k + 1) = st.attemptsMade + (k + 1 + 1)
        omega
      | none =>
        have h := ih f (i + 1) ⟨st.attemptsMade + 1, st.sleeps, st.terminalLog⟩ r hk' hfail' hsucc'
        refine ⟨by simpa [execAttempts, ha] using h.1, ?_⟩
        simp only [execAttempts, ha]
        rw [h.2]
        show st.attemptsMade + 1 + (k + 1) = st.attemptsMade + (k + 1 + 1)
        omega

/-- If every attempt in the remaining budget fails the success test, the
loop runs the whole budget and returns `none`. -/
lemma execAttempts_all_fail (adapter : Nat → AttemptOutcome) :
    ∀ (f i : Nat) (st : ExecState),
      (∀ j, j < f → outcomeSuccess (adapter (i + j)) = none) →
      (execAttempts adapter f i st).2 = none ∧
      (execAttempts adapter f i st).1.attemptsMade = st.attemptsMade + f := by
  intro f
  induction f with
  | zero => intro i st _; exact ⟨rfl, rfl⟩
  | succ f ih =>
    intro i st hfail
    have h0 : outcomeSuccess (adapter i) = none := by
      have := hfail 0 (Nat.succ_pos f)
      rwa [Nat.add_zero] at this
    have hfail' : ∀ j, j < f → outcomeSuccess (adapter (i + 1 + j)) = none := by
      intro j hj
      have := hfail (j + 1) (by omega)
      rwa [show i + (j + 1) = i + 1 + j by omega] at this
    cases ha : adapter i with
    | throws =>
      have h := ih (i + 1)
        ⟨st.attemptsMade + 1, st.sleeps + 1,
         st.terminalLog || decide (i = RETRY_ATTEMPTS - 1)⟩ hfail'
      refine ⟨by simpa [execAttempts, ha] using h.1, ?_⟩
      simp only [execAttempts, ha]
      rw [h.2]
      show st.attemptsMade + 1 + f = st.attemptsMade + (f + 1)
      omega
    | receipt ro =>
      cases ro with
      | some r0 =>
        have h1 : ¬ r0.status = 1 := by
          intro h1
          rw [ha] at h0
          simp [outcomeSuccess, h1] at h0
        have h := ih (i + 1) ⟨st.attemptsMade + 1, st.sleeps, st.terminalLog⟩ hfail'
        refine ⟨by simpa [execAttempts, ha, h1] using h.1, ?_⟩
        simp only [execAttempts, ha, if_neg h1]
        rw [h.2]
        show st.attemptsMade + 1 + f = st.attemptsMade + (f + 1)
        omega
      | none =>
        have h := ih (i + 1) ⟨st.attemptsMade + 1, st.sleeps, st.terminalLog⟩ hfail'
        refine ⟨by simpa [execAttempts, ha] using h.1, ?_⟩
        simp only [execAttempts, ha]
        rw [h.2]
        show st.attemptsMade + 1 + f = st.attemptsMade + (f + 1)
        omega

/-- Full effect characterisation of the attempt loop, entered with `idx +
fuel = RETRY_ATTEMPTS` (as the source's `for` loop guarantees) and a clear
terminal-log flag: some `n ≤ fuel` iterations run; sleeps happen exactly
after the iterations whose outcome was a raised exception; the terminal
message is logged exactly when the final iteration (`attempt ==
RETRY_ATTEMPTS - 1`) runs and raises. -/
lemma execAttempts_master (adapter : Nat → AttemptOutcome) :
    ∀ (f i : Nat) (st : ExecState),
      i + f = RETRY_ATTEMPTS → st.terminalLog = false →
      ∃ n, n ≤ f ∧
        (execAttempts adapter f i st).1.attemptsMade = st.attemptsMade + n ∧
        (execAttempts adapter f i st).1.sleeps = st.sleeps + countThrowsIn adapter i n ∧
        ((execAttempts adapter f i st).1.terminalLog = true ↔
          (n = f ∧ 0 < f ∧ adapter (RETRY_ATTEMPTS - 1) = AttemptOutcome.throws)) := by
  intro f
  induction f with
  | zero =>
    intro i st _ hlog
    refine ⟨0, le_refl 0, rfl, rfl, ?_⟩
    simp [execAttempts, hlog]
  | succ f ih =>
    intro i st hinv hlog
    cases ha : adapter i with
    | throws =>
      by_cases hf : f = 0
      · subst hf
        have hi : i = RETRY_ATTEMPTS - 1 := by
          simp only [RETRY_ATTEMPTS] at hinv ⊢
          omega
        subst hi
        refine ⟨1, le_refl 1, ?_, ?_, ?_⟩
        · simp [execAttempts, ha]
        · simp [execAttempts, ha, countThrowsIn]
        · simp [execAttempts, ha, hlog]
      · have hdec : (decide (i = RETRY_ATTEMPTS - 1)) = false := by
          simp only [decide_eq_false_iff_not]
          simp only [RETRY_ATTEMPTS] at hinv ⊢
          omega
        obtain ⟨n, hn, hA, hS, hL⟩ := ih (i + 1)
          ⟨st.attemptsMade + 1, st.sleeps + 1,
           st.terminalLog || decide (i = RETRY_ATTEMPTS - 1)⟩
          (by omega) (by simp [hlog, hdec])
        refine ⟨n + 1, by omega, ?_, ?_, ?_⟩
        · simp only [execAttempts, ha]
          rw [hA]
          show st.attemptsMade + 1 + n = st.attemptsMade + (n + 1)
          omega
        · simp only [execAttempts, ha]
          rw [hS]
          show st.sleeps + 1 + countThrowsIn adapter (i + 1) n =
            st.sleeps + countThrowsIn adapter i (n + 1)
          have hcnt : countThrowsIn adapter i (n + 1) = 1 + countThrowsIn adapter (i + 1) n := by
            simp [countThrowsIn, ha]
          rw [hcnt]
          omega
        · simp only [execAttempts, ha]
          rw [hL]
          constructor
          · rintro ⟨hh1, _, h3⟩
            exact ⟨by omega, by omega, h3⟩
          · rintro ⟨hh1, _, h3⟩
            exact ⟨by omega, by omega, h3⟩
    | receipt ro =>
      cases ro with
      | some r0 =>
        by_cases h1 : r0.status = 1
        · refine ⟨1, by omega, ?_, ?_, ?_⟩
          · simp [execAttempts, ha, h1]
          · simp [execAttempts, ha, h1, countThrowsIn]
          · have hred : (execAttempts adapter (f + 1) i st).1.terminalLog = st.terminalLog := by
              simp [execAttempts, ha, h1]
            rw [hred, hlog]
            simp only [Bool.false_eq_true, false_iff]
            rintro ⟨hf1, _, h4⟩
            have hf0 : f = 0 := by omega
            subst hf0
            have hi : i = RETRY_ATTEMPTS - 1 := by
              simp only [RETRY_ATTEMPTS] at hinv ⊢
              omega
            rw [hi, h4] at ha
            exact AttemptOutcome.noConfusion ha
        · obtain ⟨n, hn, hA, hS, hL⟩ := ih (i + 1)
            ⟨st.attemptsMade + 1, st.sleeps, st.terminalLog⟩ (by omega) (by simp [hlog])
          refine ⟨n + 1, by omega, ?_, ?_, ?_⟩
          · simp only [execAttempts, ha, if_neg h1]
            rw [hA]
            show st.attemptsMade + 1 + n = st.attemptsMade + (n + 1)
            omega
          · simp only [execAttempts, ha, if_neg h1]
            rw [hS]
            show st.sleeps + countThrowsIn adapter (i + 1) n =
              st.sleeps + countThrowsIn adapter i (n + 1)
            have hcnt : countThrowsIn adapter i (n + 1) = countThrowsIn adapter (i + 1) n := by
              simp [countThrowsIn, ha]
            rw [hcnt]
          · simp only [execAttempts, ha, if_neg h1]
            rw [hL]
            by_cases hf : f = 0
            · subst hf
              have hn0 : n = 0 := by omega
              subst hn0
              have hi : i = RETRY_ATTEMPTS - 1 := by
                simp only [RETRY_ATTEMPTS] at hinv ⊢
                omega
              constructor
              · rintro ⟨_, h2, _⟩
                exact absurd h2 (by omega)
              · rintro ⟨_, _, h4⟩
                rw [hi, h4] at ha
                exact AttemptOutcome.noConfusion ha
            · constructor
              · rintro ⟨hh1, hh2, h3⟩
                exact ⟨by omega, by omega, h3⟩
              · rintro ⟨hh1, hh2, h3⟩
                exact ⟨by omega, by omega, h3⟩
      | none =>
        obtain ⟨n, hn, hA, hS, hL⟩ := ih (i + 1)
          ⟨st.attemptsMade + 1, st.sleeps, st.terminalLog⟩ (by omega) (by simp [hlog])
        refine ⟨n + 1, by omega, ?_, ?_, ?_⟩
        · simp only [execAttempts, ha]
          rw [hA]
          show st.attemptsMade + 1 + n = st.attemptsMade + (n + 1)
          omega
        · simp only [execAttempts, ha]
          rw [hS]
          show st.sleeps + countThrowsIn adapter (i + 1) n =
            st.sleeps + countThrowsIn adapter i (n + 1)
          have hcnt : countThrowsIn adapter i (n + 1) = countThrowsIn adapter (i + 1) n := by
            simp [countThrowsIn, ha]
          rw [hcnt]
        · simp only [execAttempts, ha]
          rw [hL]
          by_cases hf : f = 0
          · subst hf
            have hn0 : n = 0 := by omega
            subst hn0
            have hi : i = RETRY_ATTEMPTS - 1 := by
              simp only [RETRY_ATTEMPTS] at hinv ⊢
              omega
            constructor
            · rintro ⟨_, h2, _⟩
              exact absurd h2 (by omega)
            · rintro ⟨_, _, h4⟩
              rw [hi, h4] at ha
              exact AttemptOutcome.noConfusion ha
          · constructor
            · rintro ⟨hh1, hh2, h3⟩
              exact ⟨by omega, by omega, h3⟩
            · rintro ⟨hh1, hh2, h3⟩
              exact ⟨by omega, by omega, h3⟩

/-! ## Claims about the relay executor -/

/-- Scripted adapter for the C8 witness: the first two attempts raise, the
third returns a success receipt. -/
def c8Adapter : Nat → AttemptOutcome :=
  fun i => if i < 2 then AttemptOutcome.throws else AttemptOutcome.receipt (some ⟨1, 99⟩)

/-- Scripted adapter for the C10 counterexample: every attempt completes
and yields a receipt whose status indicates failure. -/
def c10Adapter : Nat → AttemptOutcome := fun _ => AttemptOutcome.receipt (some ⟨0, 0⟩)

/-- C8: if the adapter fails the first `k < RETRY_ATTEMPTS` attempts and
the `(k+1)`-th attempt yields a success-status receipt, the executor
returns exactly that receipt after exactly `k+1` attempts. -/
theorem C8_succeeds_after_k_failures (adapter : Nat → AttemptOutcome) (k : Nat) (r : Receipt)
    (hk : k < RETRY_ATTEMPTS)
    (hfail : ∀ j, j < k → outcomeSuccess (adapter j) = none)
    (hsucc : outcomeSuccess (adapter k) = some r) :
    (execute_safe_transaction adapter).2 = some r ∧
    (execute_safe_transaction adapter).1.attemptsMade = k + 1 := by
  have h := execAttempts_first_success adapter k RETRY_ATTEMPTS 0 ⟨0, 0, false⟩ r hk
    (by intro j hj; rw [Nat.zero_add]; exact hfail j hj)
    (by rw [Nat.zero_add]; exact hsucc)
  exact ⟨by simpa [execute_safe_transaction] using h.1,
         by simpa [execute_safe_transaction] using h.2⟩

/-- Witness for C8 with `k = 2`: two raised attempts, success on the third. -/
theorem C8_witness :
    (execute_safe_transaction c8Adapter).2 = some ⟨1, 99⟩ ∧
    (execute_safe_transaction c8Adapter).1.attemptsMade = 3 :=
  C8_succeeds_after_k_failures c8Adapter 2 ⟨1, 99⟩ (by decide) (by decide) (by decide)

/-- C9: if no attempt ever passes the success test, the executor returns
`none` after exactly `RETRY_ATTEMPTS = 5` attempts; in the embedding the
executor is a total function, reflecting that the source catches every
exception at the attempt boundary and propagates none to the caller. -/
theorem C9_all_attempts_fail_returns_none (adapter : Nat → AttemptOutcome)
    (hfail : ∀ j, j < RETRY_ATTEMPTS → outcomeSuccess (adapter j) = none) :
    (execute_safe_transaction adapter).2 = none ∧
    (execute_safe_transaction adapter).1.attemptsMade = RETRY_ATTEMPTS ∧
    RETRY_ATTEMPTS = 5 := by
  have h := execAttempts_all_fail adapter RETRY_ATTEMPTS 0 ⟨0, 0, false⟩
    (by intro j hj; rw [Nat.zero_add]; exact hfail j hj)
  exact ⟨by simpa [execute_safe_transaction] using h.1,
         by simpa [execute_safe_transaction] using h.2, rfl⟩

/-- Witness for C9: the always-raising adapter. -/
theorem C9_witness :
    (execute_safe_transaction (fun _ => AttemptOutcome.throws)).2 = none ∧
    (execute_safe_transaction (fun _ => AttemptOutcome.throws)).1.attemptsMade = RETRY_ATTEMPTS ∧
    RETRY_ATTEMPTS = 5 :=
  C9_all_attempts_fail_returns_none (fun _ => AttemptOutcome.throws) (by decide)

/-- C10 counterexample: an adapter whose every attempt completes but whose
receipt always has a failure status.  The claim requires a sleep before
each retry and a terminal-failure log at exhaustion; the run performs all
five attempts yet sleeps zero times and logs no terminal failure (the
sleep and the log both live inside the `except` block, which a bad receipt
never enters). -/
theorem C10_counterexample :
    (execute_safe_transaction c10Adapter).2 = none ∧
    (execute_safe_transaction c10Adapter).1.attemptsMade = RETRY_ATTEMPTS ∧
    (execute_safe_transaction c10Adapter).1.sleeps = 0 ∧
    (execute_safe_transaction c10Adapter).1.terminalLog = false := by
  refine ⟨by decide, by decide, by decide, by decide⟩

/-- C10 amended: the executor sleeps the fixed delay exactly after the
attempts that raised an exception (a retry after an absent or
failure-status receipt happens immediately with no sleep, and the sleep
also runs after a raising final attempt), and the terminal failure is
logged exactly when all `RETRY_ATTEMPTS` attempts ran and the final one
raised. -/
theorem C10_sleep_and_terminal_log (adapter : Nat → AttemptOutcome) :
    (execute_safe_transaction adapter).1.sleeps =
      countThrowsIn adapter 0 (execute_safe_transaction adapter).1.attemptsMade ∧
    ((execute_safe_transaction adapter).1.terminalLog = true ↔
      ((execute_safe_transaction adapter).1.attemptsMade = RETRY_ATTEMPTS ∧
       adapter (RETRY_ATTEMPTS - 1) = AttemptOutcome.throws)) := by
  obtain ⟨n, hn, hA, hS, hL⟩ :=
    execAttempts_master adapter RETRY_ATTEMPTS 0 ⟨0, 0, false⟩ (Nat.zero_add _) rfl
  have e1 : (execute_safe_transaction adapter).1.sleeps = 0 + countThrowsIn adapter 0 n := hS
  have e2 : (execute_safe_transaction adapter).1.attemptsMade = 0 + n := hA
  have e3 : ((execute_safe_transaction adapter).1.terminalLog = true) ↔
      (n = RETRY_ATTEMPTS ∧ 0 < RETRY_ATTEMPTS ∧
       adapter (RETRY_ATTEMPTS - 1) = AttemptOutcome.throws) := hL
  constructor
  · rw [e1, e2, Nat.zero_add, Nat.zero_add]
  · rw [e2, e3]
    constructor
    · rintro ⟨hh1, _, h3⟩
      exact ⟨by omega, h3⟩
    · rintro ⟨hh1, h3⟩
      exact ⟨by omega, by decide, h3⟩

/-- Witness for C10 (amended) at the always-raising adapter. -/
theorem C10_witness :
    (execute_safe_transaction (fun _ => AttemptOutcome.throws)).1.sleeps =
      countThrowsIn (fun _ => AttemptOutcome.throws) 0
        (execute_safe_transaction (fun _ => AttemptOutcome.throws)).1.attemptsMade ∧
    ((execute_safe_transaction (fun _ => AttemptOutcome.throws)).1.terminalLog = true ↔
      ((execute_safe_transaction (fun _ => AttemptOutcome.throws)).1.attemptsMade = RETRY_ATTEMPTS ∧
       (fun _ => AttemptOutcome.throws : Nat → AttemptOutcome) (RETRY_ATTEMPTS - 1) =
         AttemptOutcome.throws)) :=
  C10_sleep_and_terminal_log (fun _ => AttemptOutcome.throws)

end AutoSwitcher
